import Mathlib

/-!
Verification of the `esp8266_device_framework` core against its specification.

The development shallowly embeds the relevant C++ code:

* `Vindriktning`: the binary frame scanner, checksum and decoder of
  `src/VindriktningAirQuality.cpp` (`find_message`, `is_valid_checksum`,
  `parse`).
* `Accum`: the rolling-average `Accumulator<T, N>` of
  `src/grmcdorman/device/Accumulator.h`, at the `uint32_t` instantiation used
  by the PM2.5 sensor.
* `Mqtt`: the reconnect backoff, publish pass and auto-discovery builder of
  `src/MqttPublisher.cpp`.

Byte buffers are `List Nat` with each entry a byte value; machine-integer
wrap-around is made explicit (`% 256`, `% 2^32`) where the C++ type forces it.
-/

namespace Vindriktning

/-- `VindriktningAirQuality::vindriktning_message_size` (20 bytes per frame). -/
def vindriktning_message_size : Nat := 20

/-- `VindriktningAirQuality::HEADER_BYTE_0` (`0x16`). -/
def HEADER_BYTE_0 : Nat := 0x16

/-- `VindriktningAirQuality::HEADER_BYTE_1` (`0x11`). -/
def HEADER_BYTE_1 : Nat := 0x11

/-- `VindriktningAirQuality::HEADER_BYTE_2` (`0x0B`). -/
def HEADER_BYTE_2 : Nat := 0x0B

/-- Byte of the receive buffer at index `i` (all uses are in bounds; the
default is irrelevant). -/
def byteAt (buf : List Nat) (i : Nat) : Nat := buf.getD i 0

/-- `VindriktningAirQuality::is_valid_checksum`, applied at offset `i` of the
buffer: a `uint8_t` accumulator adds the 20 bytes of the candidate frame
(addition wraps modulo 256) and the result must be zero. -/
def is_valid_checksum (buf : List Nat) (i : Nat) : Bool :=
  (((buf.drop i).take vindriktning_message_size).foldl
      (fun c b => (c + b) % 256) 0) == 0

/-- The `memchr(candidate + 1, HEADER_BYTE_0, byte_count)` call of
`find_message`, as an index: the first position `i ≥ start` holding
`HEADER_BYTE_0`.  The C call's search length is always `byte_count`, which
covers every valid byte of the buffer regardless of `start`; a hit past the
valid bytes would fail the subsequent `bytes_left` test exactly as a `nullptr`
result does, so searching only the valid suffix is equivalent. -/
def memchr_header (buf : List Nat) (start : Nat) : Option Nat :=
  match (buf.drop start).findIdx? (fun b => b == HEADER_BYTE_0) with
  | none => none
  | some j => some (start + j)

/-- The do/while loop of `VindriktningAirQuality::find_message`, with the
candidate offset in place of the candidate pointer.  Each iteration looks for
the next `HEADER_BYTE_0`, gives up (`nullptr`) when none is found or fewer
than 20 bytes remain from it, and otherwise re-enters the loop exactly when
`candidate[1] != HEADER_BYTE_1 && candidate[2] != HEADER_BYTE_2 &&
is_valid_checksum(candidate)` — the source's condition verbatim, including its
`&&` chaining.  `fuel` only bounds the recursion; `find_message` supplies
enough for every reachable iteration (the start index strictly increases). -/
def find_message_loop (buf : List Nat) : Nat → Nat → Option Nat
  | 0, _ => none
  | fuel + 1, start =>
    match memchr_header buf start with
    | none => none
    | some i =>
      if buf.length - i < vindriktning_message_size then
        none
      else if byteAt buf (i + 1) != HEADER_BYTE_1 &&
              byteAt buf (i + 2) != HEADER_BYTE_2 &&
              is_valid_checksum buf i then
        find_message_loop buf fuel (i + 1)
      else
        some i

/-- `VindriktningAirQuality::find_message`: offset of the returned pointer,
`none` for `nullptr`. -/
def find_message (buf : List Nat) : Option Nat :=
  find_message_loop buf (buf.length + 1) 0

/-- The reading extracted by `VindriktningAirQuality::parse`:
`(data[5] << 8) | data[6]`. -/
def parse_pm25 (data : List Nat) : Nat :=
  (byteAt data 5) <<< 8 ||| byteAt data 6

/-- A valid 20-byte frame: header `16 11 0B`, sixteen zero bytes, checksum
`0xCE` making the byte sum `0x100 ≡ 0 (mod 256)`. -/
def goodFrame : List Nat :=
  [0x16, 0x11, 0x0B, 0, 0, 0, 0, 0, 0, 0, 0, 0, 0, 0, 0, 0, 0, 0, 0, 0xCE]

/-- `goodFrame` with a single bit flipped in byte 5 (`0x00 → 0x01`), which
invalidates the checksum while leaving the three header bytes intact. -/
def corruptFrame : List Nat :=
  [0x16, 0x11, 0x0B, 0, 0, 1, 0, 0, 0, 0, 0, 0, 0, 0, 0, 0, 0, 0, 0, 0xCE]

/-- A buffer holding one stray `HEADER_BYTE_0` occurrence followed
immediately by a fully valid frame starting at offset 1. -/
def resyncBuf : List Nat := 0x16 :: goodFrame

end Vindriktning

namespace Accum

/-- Modulus of the `uint32_t` value type of the PM2.5 instantiation
`Accumulator<uint32_t, 5>`. -/
def U32 : Nat := 2 ^ 32

/-- The mutable fields of `Accumulator<T, N>` (`Accumulator.h`), at
`T = uint32_t`: the last reading, the ring buffer `last_reading_set[N]`, the
write cursor `current_index` and the saturating sample count
`data_read_first`.  (`last_sample_time` only feeds `get_last_sample_age` and
is not needed by any claim.) -/
structure State (N : Nat) where
  last_reading : Nat
  last_reading_set : List Nat
  current_index : Nat
  data_read_first : Nat
deriving DecidableEq

/-- The freshly constructed accumulator: `last_reading = unset_value = 0`,
cursor and count zero.  The C++ ring array is uninitialized storage; it is
modelled as zeros, which is sound because `get_current_average` only reads
the first `data_read_first` slots and those are always written first. -/
def initState (N : Nat) : State N :=
  { last_reading := 0
  , last_reading_set := List.replicate N 0
  , current_index := 0
  , data_read_first := 0 }

/-- `Accumulator::new_reading`: store the value (a `uint32_t`, hence reduced
modulo `2^32`) at the cursor, advance the cursor modulo `N`, and increment
`data_read_first` until it saturates at `N`. -/
def new_reading {N : Nat} (v : Nat) (s : State N) : State N :=
  { last_reading := v % U32
  , last_reading_set := s.last_reading_set.set s.current_index (v % U32)
  , current_index := (s.current_index + 1) % N
  , data_read_first :=
      if s.data_read_first < N then s.data_read_first + 1 else s.data_read_first }

/-- The `std::accumulate` call of `get_current_average`: a left fold adding in
`uint32_t`, i.e. wrapping modulo `2^32` at every step. -/
def accumulate_u32 (l : List Nat) : Nat :=
  l.foldl (fun a b => (a + b) % U32) 0

/-- `Accumulator::get_current_average`: zero (`unset_value`) when no data has
been accumulated, otherwise the sum of the first `min data_read_first N` ring
slots divided by that count.  The C++ quotient is a `float` division of the
exactly-computed integer sum; it is modelled as the exact rational
quotient. -/
def get_current_average {N : Nat} (s : State N) : ℚ :=
  if min s.data_read_first N = 0 then 0
  else (accumulate_u32 (s.last_reading_set.take (min s.data_read_first N)) : ℚ) /
    ((min s.data_read_first N : Nat) : ℚ)

/-- `Accumulator::get_last_reading`. -/
def get_last_reading {N : Nat} (s : State N) : Nat := s.last_reading

/-- `Accumulator::has_accumulation`: `data_read_first > 0`. -/
def has_accumulation {N : Nat} (s : State N) : Bool := s.data_read_first > 0

/-- Feed a sequence of readings into a fresh accumulator, oldest first. -/
def record_all (N : Nat) (vs : List Nat) : State N :=
  vs.foldl (fun s v => new_reading v s) (initState N)

/-- The last `min N vs.length` readings of the sequence `vs`, oldest first —
the window the specification says the average ranges over. -/
def window (N : Nat) (vs : List Nat) : List Nat := vs.drop (vs.length - N)

/-- Invariant tying the accumulator state to the whole recorded sequence
`vs`: the sample count is the saturated length, the cursor is the length
modulo `N`, the last reading is the last recorded value, and the ring holds
the window — laid out directly (padded with the unread zeros) while filling,
and as a rotation `B ++ A` of the window `A ++ B` once full, with the cursor
at the seam. -/
def RingInv (N : Nat) (vs : List Nat) (s : State N) : Prop :=
  s.data_read_first = min vs.length N ∧
  s.current_index = vs.length % N ∧
  s.last_reading = vs.getLastD 0 % U32 ∧
  s.last_reading_set.length = N ∧
  (if vs.length < N then
      s.last_reading_set = vs ++ List.replicate (N - vs.length) 0
    else
      ∃ A B, s.last_reading_set = B ++ A ∧ window N vs = A ++ B ∧
        B.length = vs.length % N)

end Accum

namespace Mqtt

/-- `MqttPublisher::CONNECTION_TRIES` (`MqttPublisher.h`). -/
def CONNECTION_TRIES : Nat := 5

/-- `MqttPublisher::CONNECTION_RETRY_INTERVAL`, seconds (`MqttPublisher.h`). -/
def CONNECTION_RETRY_INTERVAL : Nat := 5

/-- The failure branch of `MqttPublisher::reconnect`: increment `retry_count`
(a `uint16_t`, which never exceeds `CONNECTION_TRIES + 1` before being reset,
so plain `Nat` arithmetic is exact); if it now exceeds `CONNECTION_TRIES`,
schedule the next attempt after the configured `reconnect_interval` and reset
the counter, otherwise schedule it after `CONNECTION_RETRY_INTERVAL`.
Returns the new `retry_count` and the scheduled interval in seconds. -/
def reconnect_failure (reconnect_interval : Nat) (retry_count : Nat) : Nat × Nat :=
  let rc := retry_count + 1
  if rc > CONNECTION_TRIES then (0, reconnect_interval)
  else (rc, CONNECTION_RETRY_INTERVAL)

/-- `m` consecutive failed connection attempts starting from `retry_count`:
the final `retry_count` and, in order, the interval scheduled after each
failure (the spacing between each attempt and the next one). -/
def run_failures (reconnect_interval : Nat) : Nat → Nat → Nat × List Nat
  | rc, 0 => (rc, [])
  | rc, m + 1 =>
    let p := reconnect_failure reconnect_interval rc
    let rest := run_failures reconnect_interval p.1 m
    (rest.1, p.2 :: rest.2)

/-- A device as seen by the publish pass of `MqttPublisher::publish`:
its JSON identifier key, `is_enabled()`, and the published flag behind
`get_is_published()` / `set_is_published()`.  The flag accessors are declared
on the `Device` base class (modelled from the spec: trivial accessors of a
per-device boolean, not present in this source snapshot; `WifiSetup.h`
overrides `get_is_published` confirming the boolean contract).
`Device::publish` is modelled after the concrete `VindriktningAirQuality::publish`:
it adds the device's identifier key to the aggregate JSON whenever the device
is enabled. -/
structure Dev where
  ident : String
  enabled : Bool
  is_published : Bool
deriving DecidableEq

/-- The device loop inside `MqttPublisher::publish`: in registry order, a
device that `is_enabled()` and does not `get_is_published()` renders its key
into the aggregate payload and is marked published; every other device is
skipped untouched.  Returns the payload keys in order and the updated
devices. -/
def publish_pass : List Dev → List String × List Dev
  | [] => ([], [])
  | d :: ds =>
    let rest := publish_pass ds
    if d.enabled && !d.is_published then
      (d.ident :: rest.1, { d with is_published := true } :: rest.2)
    else
      (rest.1, d :: rest.2)

/-- The single aggregated state message transmitted at the end of
`MqttPublisher::publish`: `mqttClient->publish(topicState.c_str(), buffer.get(), true)`. -/
structure StateMessage where
  topic : String
  payload_keys : List String
  retained : Bool
deriving DecidableEq

/-- The `MqttPublisher` state read and written by `publish()`:
the early-exit conditions (`is_enabled()`, `mqttClient != nullptr`,
`server_address.get().isEmpty()`, `devices != nullptr`), the attached
devices, the transport connection state, whether `connect_ticker` has a
pending retry, whether a transport connect call issued now would succeed,
and the fields `previous_publish_ms`, `tried_publish`,
`last_publish_failed`. -/
structure PubState where
  enabled : Bool
  has_client : Bool
  server_blank : Bool
  has_devices : Bool
  devices : List Dev
  connected : Bool
  connect_ticker_active : Bool
  connect_would_succeed : Bool
  previous_publish_ms : Nat
  tried_publish : Bool
  last_publish_failed : Bool
deriving DecidableEq

/-- `MqttPublisher::publish` at time `now` (`millis()`), with `transmit_ok`
the result of the final `mqttClient->publish` call: bail out if disabled,
not set up, unconfigured, or without devices; if the transport is not
connected, run `reconnect()` (unless a retry is already pending) and bail out
if still unconnected — crucially without touching `previous_publish_ms`;
otherwise stamp `tried_publish` and `previous_publish_ms := now`, run the
device pass, transmit the aggregate payload with the retained flag set, and
record the transmit result in `last_publish_failed`.  Returns the new state
and the transmitted message, if any.  (The backoff bookkeeping of a failed
`reconnect()` is modelled separately by `run_failures`.) -/
def publish (topicState : String) (st : PubState) (now : Nat) (transmit_ok : Bool) :
    PubState × Option StateMessage :=
  if !st.enabled || !st.has_client || st.server_blank || !st.has_devices then
    (st, none)
  else
    let conn :=
      st.connected || (!st.connect_ticker_active && st.connect_would_succeed)
    if !conn then (st, none)
    else
      let p := publish_pass st.devices
      ({ st with
          devices := p.2
          connected := true
          tried_publish := true
          previous_publish_ms := now
          last_publish_failed := !transmit_ok },
       some { topic := topicState, payload_keys := p.1, retained := true })

/-- One sensor-capability descriptor (`Device::Definition`,
`src/grmcdorman/device/Device.h`): the per-capability fields consumed by
`MqttPublisher::publish_auto_config`.  `get_json_attributes_template()` may
return `nullptr`, modelled as `none`. -/
structure CapDefinition where
  name_suffix : String
  value_template : String
  unique_id_suffix : String
  unit_of_measurement : String
  json_attributes_template : Option String
  icon : String
deriving DecidableEq

/-- A device as seen by `publish_auto_config`: enabled flag and its
capability definitions. -/
structure AutoDev where
  enabled : Bool
  definitions : List CapDefinition
deriving DecidableEq

/-- One retained auto-discovery message as built inside the nested loops of
`publish_auto_config`: its topic, whether the optional
`json_attributes_topic` / `json_attributes_template` fields were included,
and the retained flag of the `mqttClient->publish(topic, buffer, true)`
call. -/
structure ConfigMessage where
  topic : String
  has_attributes_fields : Bool
  retained : Bool
deriving DecidableEq

/-- The message `publish_auto_config` builds for one capability definition:
topic `homeassistant/sensor/{prefix}/{identifier}{unique_id_suffix}/config`;
the attribute fields are present exactly when
`get_json_attributes_template() != nullptr`; published retained. -/
def config_message (pfx idf : String) (dfn : CapDefinition) : ConfigMessage :=
  { topic := "homeassistant/sensor/" ++ pfx ++ "/" ++ idf ++
      dfn.unique_id_suffix ++ "/config"
  , has_attributes_fields := dfn.json_attributes_template.isSome
  , retained := true }

/-- The nested loops of `MqttPublisher::publish_auto_config`: for every
enabled device, one retained discovery message per capability definition, in
order; disabled devices contribute nothing. -/
def publish_auto_config (pfx idf : String) : List AutoDev → List ConfigMessage
  | [] => []
  | d :: ds =>
    (if d.enabled then d.definitions.map (config_message pfx idf) else []) ++
      publish_auto_config pfx idf ds

/-- Test device A of the publish-gating scenario: disabled, with unpublished
data. -/
def devA : Dev := { ident := "a", enabled := false, is_published := false }

/-- Test device B of the publish-gating scenario: enabled, data already
published. -/
def devB : Dev := { ident := "b", enabled := true, is_published := true }

/-- Test device C of the publish-gating scenario: enabled, with unpublished
data. -/
def devC : Dev := { ident := "c", enabled := true, is_published := false }

/-- A fully configured, connected publisher holding devices A, B, C. -/
def stABC : PubState :=
  { enabled := true, has_client := true, server_blank := false
  , has_devices := true, devices := [devA, devB, devC], connected := true
  , connect_ticker_active := false, connect_would_succeed := true
  , previous_publish_ms := 0, tried_publish := false, last_publish_failed := false }

/-- A fully configured publisher whose transport is down and whose reconnect
attempt would fail. -/
def stNoConn : PubState :=
  { enabled := true, has_client := true, server_blank := false
  , has_devices := true, devices := [devC], connected := false
  , connect_ticker_active := false, connect_would_succeed := false
  , previous_publish_ms := 0, tried_publish := false, last_publish_failed := false }

/-- A capability definition whose optional attributes template is absent
(`get_json_attributes_template()` returns `nullptr`). -/
def capNoAttr : CapDefinition :=
  { name_suffix := " PM", value_template := "vt", unique_id_suffix := "_pm"
  , unit_of_measurement := "ug", json_attributes_template := none, icon := "ico" }

/-- An enabled device exposing only `capNoAttr`. -/
def autoDevNoAttr : AutoDev := { enabled := true, definitions := [capNoAttr] }

end Mqtt

namespace Vindriktning

/-- Every byte read out of a buffer of bytes is below 256. -/
theorem byteAt_lt (data : List Nat) (h : ∀ b ∈ data, b < 256) (i : Nat) :
    byteAt data i < 256 := by
  unfold byteAt
  rw [List.getD]
  cases h' : data[i]? with
  | none => simp [h']
  | some b =>
    have hb : b ∈ data := List.getElem?_mem h'
    simpa [h'] using h b hb

/-- C1: the code contradicts the claim (and `find_message`'s own doc comment,
which promises "a valid message - correct header and checksum").  The valid
frame `goodFrame` is located at offset 0, but flipping a single bit in byte 5
(`corruptFrame`), which invalidates the checksum while leaving the header
intact, does NOT make `find_message` reject the frame and continue scanning:
the `&&`-chained loop condition exits as soon as `candidate[1] ==
HEADER_BYTE_1`, so the checksum is never consulted and the corrupted frame is
returned at offset 0. -/
theorem find_message_accepts_corrupt_frame :
    find_message goodFrame = some 0 ∧
    is_valid_checksum corruptFrame 0 = false ∧
    find_message corruptFrame = some 0 := by decide

/-- C2: the code contradicts the claim.  `resyncBuf` holds one stray
`HEADER_BYTE_0` at offset 0 followed immediately by a fully valid frame at
offset 1 (header bytes and checksum shown valid below), yet `find_message`
returns offset 0 — the stray candidate — because its failed checksum makes
the `&&`-chained loop condition false, ending the scan instead of continuing
it. -/
theorem find_message_no_resync :
    byteAt resyncBuf 1 = HEADER_BYTE_0 ∧
    byteAt resyncBuf 2 = HEADER_BYTE_1 ∧
    byteAt resyncBuf 3 = HEADER_BYTE_2 ∧
    is_valid_checksum resyncBuf 1 = true ∧
    is_valid_checksum resyncBuf 0 = false ∧
    find_message resyncBuf = some 0 := by decide

/-- C8: for every buffer of bytes, the reading extracted by
`VindriktningAirQuality::parse` is the big-endian 16-bit quantity at the
fixed offset: `data[5] * 256 + data[6]`. -/
theorem parse_pm25_big_endian (data : List Nat) (h : ∀ b ∈ data, b < 256) :
    parse_pm25 data = byteAt data 5 * 256 + byteAt data 6 := by
  have h6 : byteAt data 6 < 2 ^ 8 := byteAt_lt data h 6
  calc (byteAt data 5) <<< 8 ||| byteAt data 6
      = 2 ^ 8 * byteAt data 5 ||| byteAt data 6 := by
        rw [Nat.shiftLeft_eq, Nat.mul_comm]
    _ = 2 ^ 8 * byteAt data 5 + byteAt data 6 :=
        (Nat.mul_add_lt_is_or h6 _).symm
    _ = byteAt data 5 * 256 + byteAt data 6 := by ring

/-- Witness for C8: a concrete frame with payload bytes `0x01 0x2C` decodes
to `1 * 256 + 44 = 300`. -/
theorem parse_pm25_big_endian_witness :
    parse_pm25 [0x16, 0x11, 0x0B, 0, 0, 1, 44, 0, 0, 0, 0, 0, 0, 0, 0, 0, 0, 0, 0, 0]
      = 1 * 256 + 44 := by
  rw [parse_pm25_big_endian _ (by decide)]
  decide

end Vindriktning


namespace Mqtt

/-- The keys the device loop of `MqttPublisher::publish` renders: exactly the
enabled devices with unpublished data, in registry order. -/
theorem publish_pass_keys (ds : List Dev) :
    (publish_pass ds).1 =
      (ds.filter (fun d => d.enabled && !d.is_published)).map Dev.ident := by
  induction ds with
  | nil => rfl
  | cons d ds ih =>
    cases h : (d.enabled && !d.is_published) with
    | false => simp [publish_pass, h, List.filter_cons, ih]
    | true => simp [publish_pass, h, List.filter_cons, ih]

/-- After the device loop, every enabled device carries the published flag. -/
theorem publish_pass_marks (ds : List Dev) :
    ∀ d ∈ (publish_pass ds).2, d.enabled = true → d.is_published = true := by
  induction ds with
  | nil => intro d hd; simp [publish_pass] at hd
  | cons a as ih =>
    intro d hd he
    cases h : (a.enabled && !a.is_published) with
    | true =>
      simp only [publish_pass, h, if_pos] at hd
      rcases List.mem_cons.mp hd with rfl | hd'
      · rfl
      · exact ih d hd' he
    | false =>
      simp only [publish_pass, h, Bool.false_eq_true, if_neg, not_false_iff] at hd
      rcases List.mem_cons.mp hd with rfl | hd'
      · simpa [he] using h
      · exact ih d hd' he

/-- Running the device loop again right after a pass renders no keys: every
device that could contribute was marked published by the first pass. -/
theorem publish_pass_again_empty (ds : List Dev) :
    (publish_pass (publish_pass ds).2).1 = [] := by
  rw [publish_pass_keys, List.map_eq_nil_iff, List.filter_eq_nil_iff]
  intro d hdmem
  have hm := publish_pass_marks ds d hdmem
  cases hde : d.enabled with
  | false => simp [hde]
  | true => simp [hde, hm hde]

/-- Under the conditions in which `MqttPublisher::publish` reaches the
transmit stage (enabled, set up, configured, devices attached, transport
connected), its full effect: devices marked by the loop, timestamp stamped to
`now`, transmit result recorded, and the aggregated state message transmitted
with the retained flag set. -/
theorem publish_run (t : String) (st : PubState) (now : Nat) (ok : Bool)
    (he : st.enabled = true) (hc : st.has_client = true)
    (hs : st.server_blank = false) (hd : st.has_devices = true)
    (hconn : st.connected = true) :
    publish t st now ok =
      ({ st with
          devices := (publish_pass st.devices).2
          connected := true
          tried_publish := true
          previous_publish_ms := now
          last_publish_failed := !ok },
       some { topic := t, payload_keys := (publish_pass st.devices).1,
              retained := true }) := by
  simp [publish, he, hc, hs, hd, hconn]

end Mqtt

namespace Mqtt

/-- C3 counterexample: with the configured cooldown at 60 seconds, after five
consecutive connection failures starting from a zero retry count the code has
NOT scheduled the sixth attempt at the cooldown spacing, nor reset the
counter: the fifth failure schedules another fast 5-second retry and leaves
`retry_count = 5`. -/
theorem backoff_sixth_attempt_cex :
    ¬ ((run_failures 60 0 5).2.getLastD 0 = 60 ∧ (run_failures 60 0 5).1 = 0) := by
  decide

/-- C3 (amended): starting from `Disconnected` (retry count zero), a run of
consecutive failures schedules the first five retries — attempts 2 through
6 — at the fast `CONNECTION_RETRY_INTERVAL` spacing; the sixth failure
schedules the seventh attempt at the configured reconnect-interval cooldown,
and the retry counter is reset to zero at that point. -/
theorem backoff_schedule (reconnect_interval : Nat) :
    run_failures reconnect_interval 0 6 =
      (0, [CONNECTION_RETRY_INTERVAL, CONNECTION_RETRY_INTERVAL,
           CONNECTION_RETRY_INTERVAL, CONNECTION_RETRY_INTERVAL,
           CONNECTION_RETRY_INTERVAL, reconnect_interval]) := rfl

/-- Witness for C3 (amended), at a 60-second configured cooldown. -/
theorem backoff_schedule_witness :
    run_failures 60 0 6 = (0, [5, 5, 5, 5, 5, 60]) := backoff_schedule 60

/-- C4: the publish pass gates devices on `is_enabled() &&
!get_is_published()`: the aggregate payload's keys are exactly the enabled
devices with unpublished data, in registry order; hence a disabled device
contributes no key even with unpublished data, and an already-published
device is omitted entirely. -/
theorem publish_gating (t : String) (st : PubState) (now : Nat) (ok : Bool)
    (he : st.enabled = true) (hc : st.has_client = true)
    (hs : st.server_blank = false) (hd : st.has_devices = true)
    (hconn : st.connected = true) :
    ∃ msg, (publish t st now ok).2 = some msg ∧
      msg.payload_keys =
        (st.devices.filter (fun d => d.enabled && !d.is_published)).map Dev.ident ∧
      ((st.devices.map Dev.ident).Nodup →
        ∀ d ∈ st.devices, (d.enabled = false ∨ d.is_published = true) →
          d.ident ∉ msg.payload_keys) := by
  rw [publish_run t st now ok he hc hs hd hconn]
  refine ⟨_, rfl, publish_pass_keys _, ?_⟩
  intro hnd d hdmem hdprop hmem
  have hmem' : d.ident ∈ (publish_pass st.devices).1 := hmem
  rw [publish_pass_keys] at hmem'
  rcases List.mem_map.mp hmem' with ⟨d', hd', hid⟩
  obtain ⟨hd'mem, hp⟩ := List.mem_filter.mp hd'
  have hdd : d' = d := List.inj_on_of_nodup_map hnd hd'mem hdmem hid
  subst hdd
  rcases hdprop with h1 | h1 <;> simp [h1] at hp

/-- Witness for C4: devices A (disabled, has data), B (enabled, already
published), C (enabled, has data) yield a payload containing only C's key. -/
theorem publish_gating_witness :
    ∃ msg, (publish "t" stABC 100 true).2 = some msg ∧ msg.payload_keys = ["c"] := by
  obtain ⟨msg, h1, h2, _⟩ := publish_gating "t" stABC 100 true rfl rfl rfl rfl rfl
  exact ⟨msg, h1, by rw [h2]; decide⟩

/-- C9: when the transmit of the aggregated payload fails, every device that
contributed has already been marked published (so all enabled devices carry
the flag), an immediately following publish cycle's payload is empty, and the
failure is recorded only in `last_publish_failed` — the marks are not rolled
back. -/
theorem publish_failure_keeps_marks (t : String) (st : PubState)
    (now now2 : Nat) (ok2 : Bool)
    (he : st.enabled = true) (hc : st.has_client = true)
    (hs : st.server_blank = false) (hd : st.has_devices = true)
    (hconn : st.connected = true) :
    (publish t st now false).1.last_publish_failed = true ∧
    (∀ d ∈ (publish t st now false).1.devices,
        d.enabled = true → d.is_published = true) ∧
    (∃ msg2, (publish t (publish t st now false).1 now2 ok2).2 = some msg2 ∧
        msg2.payload_keys = []) := by
  have hrun := publish_run t st now false he hc hs hd hconn
  have hst1 : (publish t st now false).1 =
      { st with
          devices := (publish_pass st.devices).2
          connected := true
          tried_publish := true
          previous_publish_ms := now
          last_publish_failed := !false } := by rw [hrun]
  refine ⟨by rw [hrun]; rfl, by rw [hst1]; exact publish_pass_marks st.devices, ?_⟩

  rw [hst1]
  rw [publish_run t
      { st with
          devices := (publish_pass st.devices).2
          connected := true
          tried_publish := true
          previous_publish_ms := now
          last_publish_failed := !false } now2 ok2 he hc hs hd rfl]
  exact ⟨_, rfl, publish_pass_again_empty st.devices⟩

/-- Witness for C9: after a failed transmit over devices A, B, C, the failure
flag is set and the immediately following cycle publishes an empty payload. -/
theorem publish_failure_keeps_marks_witness :
    (publish "t" stABC 100 false).1.last_publish_failed = true ∧
    (∃ msg2,
        (publish "t" (publish "t" stABC 100 false).1 200 true).2 = some msg2 ∧
        msg2.payload_keys = []) := by
  obtain ⟨h1, _, h3⟩ :=
    publish_failure_keeps_marks "t" stABC 100 200 true rfl rfl rfl rfl rfl
  exact ⟨h1, h3⟩

/-- C10: the aggregated state payload is transmitted with the MQTT retained
flag set. -/
theorem publish_state_retained (t : String) (st : PubState) (now : Nat) (ok : Bool)
    (he : st.enabled = true) (hc : st.has_client = true)
    (hs : st.server_blank = false) (hd : st.has_devices = true)
    (hconn : st.connected = true) :
    ∃ msg, (publish t st now ok).2 = some msg ∧ msg.retained = true := by
  rw [publish_run t st now ok he hc hs hd hconn]
  exact ⟨_, rfl, rfl⟩

/-- Witness for C10 at a concrete connected publisher state. -/
theorem publish_state_retained_witness :
    ∃ msg, (publish "t" stABC 100 true).2 = some msg ∧ msg.retained = true :=
  publish_state_retained "t" stABC 100 true rfl rfl rfl rfl rfl

/-- C6 counterexample: on a due cycle with the transport down and the
reconnect attempt failing, `MqttPublisher::publish` returns before the
`previous_publish_ms = millis()` line: the timestamp keeps its old value 0
instead of being updated to 1000, contradicting the claim that it is updated
regardless of a connection-failure abort. -/
theorem publish_timestamp_cex :
    ¬ ((publish "t" stNoConn 1000 true).1.previous_publish_ms = 1000) := by
  decide

/-- C6 (amended): on a due cycle that reaches the transmit stage — the
transport is connected, or the immediate reconnect attempt succeeds —
`previous_publish_ms` is updated to the current time whether the transmit
succeeds or fails; a cycle aborted for lack of a connection leaves it
untouched. -/
theorem publish_timestamp_on_connected_cycle (t : String) (st : PubState)
    (now : Nat) (ok : Bool)
    (he : st.enabled = true) (hc : st.has_client = true)
    (hs : st.server_blank = false) (hd : st.has_devices = true)
    (hconn : st.connected = true ∨
      (st.connect_ticker_active = false ∧ st.connect_would_succeed = true)) :
    (publish t st now ok).1.previous_publish_ms = now := by
  have hconn' :
      (st.connected || (!st.connect_ticker_active && st.connect_would_succeed))
        = true := by
    rcases hconn with h | ⟨h1, h2⟩
    · simp [h]
    · simp [h1, h2]
  simp [publish, he, hc, hs, hd, hconn']

/-- Witness for C6 (amended): a failed transmit on a connected cycle still
stamps the timestamp. -/
theorem publish_timestamp_on_connected_cycle_witness :
    (publish "t" stABC 777 false).1.previous_publish_ms = 777 :=
  publish_timestamp_on_connected_cycle "t" stABC 777 false rfl rfl rfl rfl
    (Or.inl rfl)

/-- A capability definition of an enabled device always yields its discovery
message in the output of `publish_auto_config`. -/
theorem mem_publish_auto_config (pfx idf : String) (devs : List AutoDev)
    (d : AutoDev) (dfn : CapDefinition) (hd : d ∈ devs) (he : d.enabled = true)
    (hdefn : dfn ∈ d.definitions) :
    config_message pfx idf dfn ∈ publish_auto_config pfx idf devs := by
  induction devs with
  | nil => cases hd
  | cons a as ih =>
    rcases List.mem_cons.mp hd with rfl | hd'
    · rw [publish_auto_config]
      exact List.mem_append_left _
        (by rw [if_pos he]; exact List.mem_map_of_mem _ hdefn)
    · rw [publish_auto_config]
      exact List.mem_append_right _ (ih hd')

/-- C7 counterexample: for an enabled device whose only capability definition
has no attributes template (`get_json_attributes_template() == nullptr`),
`publish_auto_config` does NOT skip the capability: the published message
list is non-empty. -/
theorem auto_config_no_attr_cex :
    ¬ (publish_auto_config "p" "i" [autoDevNoAttr] = []) := by decide

/-- C7 (amended): for a capability definition without an attributes template,
the auto-discovery builder still publishes a retained discovery descriptor
for the capability; only the optional `json_attributes_topic` /
`json_attributes_template` fields are skipped. -/
theorem auto_config_descriptor_without_attributes (pfx idf : String)
    (devs : List AutoDev) (d : AutoDev) (dfn : CapDefinition)
    (hd : d ∈ devs) (he : d.enabled = true) (hdefn : dfn ∈ d.definitions)
    (hnone : dfn.json_attributes_template = none) :
    config_message pfx idf dfn ∈ publish_auto_config pfx idf devs ∧
    (config_message pfx idf dfn).has_attributes_fields = false ∧
    (config_message pfx idf dfn).retained = true := by
  refine ⟨mem_publish_auto_config pfx idf devs d dfn hd he hdefn, ?_, rfl⟩
  simp [config_message, hnone]

/-- Witness for C7 (amended): the attribute-less capability of
`autoDevNoAttr` still gets its retained descriptor, with the attribute
fields absent. -/
theorem auto_config_descriptor_without_attributes_witness :
    config_message "p" "i" capNoAttr ∈ publish_auto_config "p" "i" [autoDevNoAttr] ∧
    (config_message "p" "i" capNoAttr).has_attributes_fields = false := by
  obtain ⟨h1, h2, _⟩ :=
    auto_config_descriptor_without_attributes "p" "i" [autoDevNoAttr]
      autoDevNoAttr capNoAttr (by decide) rfl (by decide) rfl
  exact ⟨h1, h2⟩

end Mqtt

namespace Accum

/-- The wrap-at-every-step fold of `std::accumulate` over `uint32_t` equals
the exact sum modulo `2^32`. -/
theorem accumulate_u32_eq_sum_mod (l : List Nat) : accumulate_u32 l = l.sum % U32 := by
  suffices h : ∀ a : Nat,
      l.foldl (fun x y => (x + y) % U32) (a % U32) = (a + l.sum) % U32 by
    simpa [accumulate_u32] using h 0
  induction l with
  | nil => intro a; simp
  | cons b t ih =>
    intro a
    simp only [List.foldl_cons, List.sum_cons]
    rw [Nat.mod_add_mod, ih (a + b), Nat.add_assoc]

/-- Writing at the seam of an append writes the head of the right part. -/
theorem set_append_length (xs ys : List Nat) (v : Nat) :
    (xs ++ ys).set xs.length v = xs ++ ys.set 0 v := by
  induction xs with
  | nil => rfl
  | cons x t ih => simp only [List.cons_append, List.length_cons,
      List.set_cons_succ, ih]

/-- The defaulted last element of a non-empty list is one of its elements. -/
theorem getLastD_mem (vs : List Nat) (h : vs ≠ []) : vs.getLastD 0 ∈ vs := by
  induction vs using List.reverseRecOn with
  | nil => exact absurd rfl h
  | append_singleton l b _ =>
    rw [List.getLastD_concat]
    exact List.mem_append_right _ (by simp)

/-- The ring invariant holds after recording any sequence of `uint32_t`
values into a fresh accumulator. -/
theorem record_all_inv (N : Nat) (hN : 0 < N) :
    ∀ vs : List Nat, (∀ v ∈ vs, v < U32) → RingInv N vs (record_all N vs) := by
  intro vs
  induction vs using List.reverseRecOn with
  | nil =>
    intro _
    refine ⟨by simp [record_all, initState], by simp [record_all, initState],
      by simp [record_all, initState], by simp [record_all, initState], ?_⟩
    simp only [List.length_nil]
    rw [if_pos hN]
    simp [record_all, initState]
  | append_singleton l v ih =>
    intro hv
    have hvl : ∀ x ∈ l, x < U32 := fun x hx => hv x (List.mem_append_left _ hx)
    have hvv : v < U32 := hv v (List.mem_append_right _ (by simp))
    obtain ⟨hdrf, hidx, hlast, hlen, hring⟩ := ih hvl
    have hstep : record_all N (l ++ [v]) = new_reading v (record_all N l) := by
      simp [record_all, List.foldl_append]
    have hL1 : (l ++ [v]).length = l.length + 1 := by simp
    rw [hstep]
    refine ⟨?_, ?_, ?_, ?_, ?_⟩
    · show (if (record_all N l).data_read_first < N
          then (record_all N l).data_read_first + 1
          else (record_all N l).data_read_first) = min (l ++ [v]).length N
      rw [hdrf, hL1]
      split <;> omega
    · show ((record_all N l).current_index + 1) % N = (l ++ [v]).length % N
      rw [hidx, hL1]
      exact Nat.mod_add_mod l.length N 1
    · show v % U32 = (l ++ [v]).getLastD 0 % U32
      rw [List.getLastD_concat]
    · show ((record_all N l).last_reading_set.set
          (record_all N l).current_index (v % U32)).length = N
      rw [List.length_set, hlen]
    · show if (l ++ [v]).length < N
        then ((record_all N l).last_reading_set.set
            (record_all N l).current_index (v % U32)) =
          (l ++ [v]) ++ List.replicate (N - (l ++ [v]).length) 0
        else ∃ A B, ((record_all N l).last_reading_set.set
            (record_all N l).current_index (v % U32)) = B ++ A ∧
          window N (l ++ [v]) = A ++ B ∧ B.length = (l ++ [v]).length % N
      rw [Nat.mod_eq_of_lt hvv, hidx, hL1]
      by_cases hL : l.length < N
      · -- still filling (or just became full)
        rw [if_pos hL] at hring
        rw [hring, Nat.mod_eq_of_lt hL, set_append_length]
        have hrep : N - l.length = (N - (l.length + 1)) + 1 := by omega
        rw [hrep, List.replicate_succ, List.set_cons_zero]
        by_cases hL1' : l.length + 1 < N
        · rw [if_pos hL1']
          simp
        · rw [if_neg hL1']
          have hfull : l.length + 1 = N := by omega
          refine ⟨l ++ [v], [], ?_, ?_, ?_⟩
          · have : N - (l.length + 1) = 0 := by omega
            simp [this]
          · unfold window
            rw [hL1, hfull, Nat.sub_self, List.drop_zero, List.append_nil]
          · rw [List.length_nil, hfull, Nat.mod_self]
      · -- ring already full: write at the seam
        rw [if_neg hL] at hring
        obtain ⟨A, B, hset, hwin, hB⟩ := hring
        have hiN : l.length % N < N := Nat.mod_lt _ hN
        have hlenBA : B.length + A.length = N := by
          rw [← List.length_append, ← hset, hlen]
        have hApos : 0 < A.length := by omega
        obtain ⟨a, A2, rfl⟩ : ∃ a A2, A = a :: A2 := by
          cases A with
          | nil => simp at hApos
          | cons a A2 => exact ⟨a, A2, rfl⟩
        rw [hset, ← hB, set_append_length, List.set_cons_zero]
        rw [if_neg (by omega)]
        have hwin1 : window N (l ++ [v]) = (A2 ++ B) ++ [v] := by
          unfold window
          rw [hL1]
          have hd : l.length + 1 - N = (l.length - N) + 1 := by omega
          rw [hd, List.drop_append_of_le_length (by omega)]
          have : l.drop (l.length - N + 1) = (l.drop (l.length - N)).drop 1 := by
            rw [List.drop_drop]
          rw [this]
          have hwl : l.drop (l.length - N) = a :: (A2 ++ B) := by
            have := hwin
            unfold window at this
            simpa using this
          rw [hwl, List.drop_one, List.tail_cons]
        by_cases hseam : B.length + 1 < N
        · refine ⟨A2, B ++ [v], by simp, ?_, ?_⟩
          · rw [hwin1, List.append_assoc]
          · rw [List.length_append, List.length_singleton, hB]
            rw [← Nat.mod_add_mod]
            exact (Nat.mod_eq_of_lt (by omega)).symm
        · have hA2 : A2 = [] := by
            have : A2.length = 0 := by
              have := hlenBA
              simp only [List.length_cons] at this
              omega
            exact List.length_eq_zero.mp this
          refine ⟨B ++ [v], [], by simp [hA2], ?_, ?_⟩
          · rw [hwin1, hA2, List.nil_append, List.append_nil]
          · rw [List.length_nil]
            have hBN : l.length % N + 1 = N := by omega
            have h1 : (l.length + 1) % N = (l.length % N + 1) % N :=
              (Nat.mod_add_mod _ _ _).symm
            rw [h1, hBN, Nat.mod_self]

end Accum

namespace Accum

/-- C5 counterexample: the claim fails on the code for `uint32_t` sequences
whose window sum overflows.  With N = 5 fed five readings of `2^31`, the
`std::accumulate` over `uint32_t` wraps (`5 * 2^31 mod 2^32 = 2^31`), so
`get_current_average` returns `2^31 / 5` while the arithmetic mean of the
last five recorded values is `2^31` (exactly representable, so float
rounding is not the cause). -/
theorem accumulator_overflow_cex :
    get_current_average (record_all 5 (List.replicate 5 (2 ^ 31))) ≠
      ((window 5 (List.replicate 5 (2 ^ 31))).sum : ℚ) /
        ((min (List.replicate 5 ((2:Nat) ^ 31)).length 5 : Nat) : ℚ) := by
  have hc : min (record_all 5 (List.replicate 5 (2 ^ 31))).data_read_first 5 = 5 := by
    decide
  have hacc : accumulate_u32 ((record_all 5 (List.replicate 5 (2 ^ 31))).last_reading_set.take 5)
      = 2147483648 := by decide
  have hw : (window 5 (List.replicate 5 (2 ^ 31))).sum = 10737418240 := by decide
  have hl : min (List.replicate 5 ((2:Nat) ^ 31)).length 5 = 5 := by decide
  unfold get_current_average
  rw [hc, hacc, hw, hl]
  norm_num

/-- C5 (amended): provided each recorded value fits `uint32_t` and the sum of
the window does not overflow `uint32_t`, `get_current_average` equals the
exact arithmetic mean of the last `min N (N+k)` recorded values only; with
zero recorded values `has_accumulation` is false and `get_current_average`
is the unset sentinel; and the last reading is the last recorded value. -/
theorem accumulator_average_window (N : Nat) (hN : 0 < N) (vs : List Nat)
    (hv : ∀ v ∈ vs, v < U32) (hsum : (window N vs).sum < U32) :
    (vs = [] → has_accumulation (record_all N vs) = false ∧
        get_current_average (record_all N vs) = 0) ∧
    (vs ≠ [] → has_accumulation (record_all N vs) = true ∧
        get_current_average (record_all N vs) =
          ((window N vs).sum : ℚ) / ((min vs.length N : Nat) : ℚ) ∧
        get_last_reading (record_all N vs) = vs.getLastD 0) := by
  obtain ⟨hdrf, hidx, hlast, hlen, hring⟩ := record_all_inv N hN vs hv
  constructor
  · rintro rfl
    constructor
    · simp [has_accumulation, record_all, initState]
    · simp [get_current_average, record_all, initState]
  · intro hne
    have hL : 0 < vs.length := List.length_pos.mpr hne
    have hmin : min (record_all N vs).data_read_first N = min vs.length N := by
      rw [hdrf]; omega
    refine ⟨?_, ?_, ?_⟩
    · simp only [has_accumulation, hdrf, gt_iff_lt, decide_eq_true_eq]
      omega
    · unfold get_current_average
      rw [hmin, if_neg (by omega)]
      by_cases hLN : vs.length < N
      · rw [if_pos hLN] at hring
        have hminL : min vs.length N = vs.length := by omega
        have hwin : window N vs = vs := by
          unfold window
          rw [Nat.sub_eq_zero_of_le (Nat.le_of_lt hLN), List.drop_zero]
        rw [hminL, hring, List.take_left, hwin, accumulate_u32_eq_sum_mod,
          Nat.mod_eq_of_lt (hwin ▸ hsum)]
      · rw [if_neg hLN] at hring
        obtain ⟨A, B, hset, hwin, hB⟩ := hring
        have hminN : min vs.length N = N := by omega
        have htake : (record_all N vs).last_reading_set.take N =
            (record_all N vs).last_reading_set :=
          List.take_of_length_le (Nat.le_of_eq hlen)
        rw [hminN, htake, hset, accumulate_u32_eq_sum_mod]
        have hsum2 : (B ++ A).sum = (window N vs).sum := by
          rw [hwin, List.sum_append, List.sum_append, Nat.add_comm]
        rw [hsum2, Nat.mod_eq_of_lt hsum]
    · rw [get_last_reading, hlast,
        Nat.mod_eq_of_lt (hv _ (getLastD_mem vs hne))]

/-- Witness for C5 (amended): N = 5 fed `[1,2,3,4,5,6]` yields average 4
(mean of the last five values 2,3,4,5,6) and last reading 6. -/
theorem accumulator_average_window_witness :
    get_current_average (record_all 5 [1, 2, 3, 4, 5, 6]) = 4 ∧
    get_last_reading (record_all 5 [1, 2, 3, 4, 5, 6]) = 6 := by
  obtain ⟨-, h⟩ :=
    accumulator_average_window 5 (by decide) [1, 2, 3, 4, 5, 6] (by decide) (by decide)
  obtain ⟨-, havg, hlast⟩ := h (by decide)
  refine ⟨?_, by rw [hlast]; decide⟩
  rw [havg]
  norm_num [window]

end Accum
